import Mathlib

/-!
Verification of the onyx-monero-dashboard daemon core.

Shallow embedding of the daemon modules:
  * `daemon/state.py`      — `MiningMode`, `MinerState` and its operations;
  * `daemon/controller.py` — `XMrigController.is_mining` / `stop_mining` /
    `_quick_stop_mining` (here `quick_stop_mining`);
  * `daemon/server.py`     — the IPC handlers `_handle_ping`,
    `_handle_config_set`, `_handle_stop` (here `handle_ping`,
    `handle_config_set`, `handle_stop`);
  * `daemon/config.py`     — `MiningConfig`, `ConfigManager.load_config` /
    `save_config`.

Modelling conventions:
  * Wall-clock inputs (`time.time()`, `time.strftime`) are explicit
    parameters (`now : Int`, `ts : String`).
  * Python's `threading.Lock` is modelled twice: the functional state
    transitions below treat each method body as one atomic step, and a
    separate lock-trace model (`LockAction`, `runLock`) captures the actual
    acquire/release sequence each method performs on the non-reentrant lock.
  * The configuration file on disk is an `Option MiningConfig` (`none` =
    file absent); JSON (de)serialisation and OS errors are abstracted away,
    which is the success path of `save_config` / `load_config`.
  * Floating point: `int(n * 0.5)` equals `n / 2` exactly (multiplying by
    0.5 is exact in IEEE double), and `int(n * 0.8)` equals `n * 8 / 10`
    for every realistic core count (the relative error of the double
    nearest 0.8 is below 2⁻⁵³, far too small to cross an integer boundary
    for `n < 2⁴⁹`), so thread counts are embedded with exact `Nat`
    arithmetic.
-/

/-- Mining operation modes (`MiningMode` in `daemon/state.py`). -/
inductive MiningMode
  | stopped
  | background
  | money_hunter
deriving DecidableEq, Repr

/-- The `.value` string of each `MiningMode` member. -/
def MiningMode.value : MiningMode → String
  | MiningMode.stopped => "stopped"
  | MiningMode.background => "background"
  | MiningMode.money_hunter => "money_hunter"

/-- The fields of `MinerState` (`daemon/state.py`, underscores dropped).
`log_buffer` embeds the `deque(maxlen=50)`, newest element last. -/
structure MinerState where
  mode : MiningMode
  xmrig_pid : Option Int
  threads_active : Nat
  total_threads : Nat
  log_buffer : List String
  last_error : Option String
  start_time : Option Int
  hashrate : Option String
deriving DecidableEq, Repr

/-- `MinerState.__init__`; `total` is what `psutil.cpu_count(logical=True)`
returned at construction. -/
def MinerState.init (total : Nat) : MinerState :=
  { mode := MiningMode.stopped
    xmrig_pid := none
    threads_active := 0
    total_threads := total
    log_buffer := []
    last_error := none
    start_time := none
    hashrate := none }

/-- `collections.deque(maxlen=cap).append`: append on the right, evict on
the left once the length exceeds `cap`. -/
def dequeAppend (cap : Nat) (buf : List String) (x : String) : List String :=
  if cap < (buf ++ [x]).length then
    (buf ++ [x]).drop ((buf ++ [x]).length - cap)
  else
    buf ++ [x]

/-- The line format built in `MinerState.add_log`. -/
def logLine (ts message : String) : String :=
  "[" ++ ts ++ "] " ++ message

/-- `MinerState.add_log` (functional content: append the timestamped line
to the bounded buffer). -/
def MinerState.add_log (s : MinerState) (ts message : String) : MinerState :=
  { s with log_buffer := dequeAppend 50 s.log_buffer (logLine ts message) }

/-- `MinerState.start_mining`. Returns the Python return value paired with
the state after the call. -/
def MinerState.start_mining (s : MinerState) (mode : MiningMode) (pid : Int)
    (threads : Nat) (now : Int) (ts : String) : Bool × MinerState :=
  if mode = MiningMode.stopped then
    (false, s)
  else
    let s1 := { s with
      mode := mode
      xmrig_pid := some pid
      threads_active := threads
      start_time := some now
      last_error := none
      hashrate := none }
    (true, s1.add_log ts ("Mining started: " ++ mode.value ++ " mode with "
      ++ toString threads ++ " threads (PID: " ++ toString pid ++ ")"))

/-- `MinerState.stop_mining`. Returns the Python return value paired with
the state after the call. -/
def MinerState.stop_mining (s : MinerState) (reason ts : String) :
    Bool × MinerState :=
  if s.mode = MiningMode.stopped then
    (false, s)
  else
    let s1 := { s with
      mode := MiningMode.stopped
      xmrig_pid := none
      threads_active := 0
      start_time := none
      hashrate := none }
    (true, s1.add_log ts ("Mining stopped: " ++ reason))

/-- `MinerState.set_error`. -/
def MinerState.set_error (s : MinerState) (error ts : String) : MinerState :=
  { s with last_error := some error }.add_log ts ("ERROR: " ++ error)

/-- `MinerState.clear_error`. -/
def MinerState.clear_error (s : MinerState) : MinerState :=
  { s with last_error := none }

/-- `MinerState.update_hashrate`. -/
def MinerState.update_hashrate (s : MinerState) (h : String) : MinerState :=
  { s with hashrate := some h }

/-- `MinerState.calculate_threads_for_mode`: thread count and xmrig
priority for a mode (priorities 1 = low, 3 = high as in the source). -/
def MinerState.calculate_threads_for_mode (s : MinerState)
    (mode : MiningMode) : Nat × Nat :=
  if mode = MiningMode.background then
    (max 1 (s.total_threads / 2), 1)
  else if mode = MiningMode.money_hunter then
    (max 1 (s.total_threads * 8 / 10), 3)
  else
    (0, 0)

/-- The priority value the source uses for low priority. -/
def priorityLow : Nat := 1

/-- The priority value the source uses for high priority. -/
def priorityHigh : Nat := 3

/-- One `start_mining` or `stop_mining` call with its arguments (including
the clock values the call observes). -/
inductive MinerOp
  | start (mode : MiningMode) (pid : Int) (threads : Nat) (now : Int) (ts : String)
  | stop (reason ts : String)

/-- Apply one operation to a state, keeping only the resulting state. -/
def applyOp (s : MinerState) : MinerOp → MinerState
  | MinerOp.start mode pid threads now ts =>
      (s.start_mining mode pid threads now ts).2
  | MinerOp.stop reason ts => (s.stop_mining reason ts).2

/-- Run a sequence of `start_mining`/`stop_mining` calls. -/
def runOps (s : MinerState) (ops : List MinerOp) : MinerState :=
  ops.foldl applyOp s

/-- The process-id/mode coupling invariant of the spec. -/
def pidInvariant (s : MinerState) : Prop :=
  s.xmrig_pid.isSome = true ↔ s.mode ≠ MiningMode.stopped

theorem add_log_mode (s : MinerState) (ts m : String) :
    (s.add_log ts m).mode = s.mode := rfl

theorem add_log_pid (s : MinerState) (ts m : String) :
    (s.add_log ts m).xmrig_pid = s.xmrig_pid := rfl

theorem applyOp_preserves_pidInvariant (s : MinerState) (op : MinerOp)
    (h : pidInvariant s) : pidInvariant (applyOp s op) := by
  cases op with
  | start mode pid threads now ts =>
    by_cases hm : mode = MiningMode.stopped
    · simp [applyOp, MinerState.start_mining, hm, h]
    · simp [applyOp, MinerState.start_mining, hm, pidInvariant,
        MinerState.add_log, hm]
  | stop reason ts =>
    by_cases hm : s.mode = MiningMode.stopped
    · simpa [applyOp, MinerState.stop_mining, hm] using h
    · simp [applyOp, MinerState.stop_mining, hm, pidInvariant,
        MinerState.add_log]

theorem runOps_preserves_pidInvariant (ops : List MinerOp) :
    ∀ s : MinerState, pidInvariant s → pidInvariant (runOps s ops) := by
  induction ops with
  | nil => intro s h; exact h
  | cons op rest ih =>
    intro s h
    exact ih (applyOp s op) (applyOp_preserves_pidInvariant s op h)

/-- C1: starting from a freshly constructed `MinerState`, every sequence of
`start_mining`/`stop_mining` calls preserves
`process_id.is_some() == (mode != Stopped)`: the state never has a pid set
while stopped nor a pid absent while not stopped. -/
theorem pid_mode_invariant_all_sequences (total : Nat) (ops : List MinerOp) :
    pidInvariant (runOps (MinerState.init total) ops) := by
  apply runOps_preserves_pidInvariant
  simp [pidInvariant, MinerState.init]

/-- C3: `start_mining` called with the `Stopped` mode argument returns
`false` and leaves the whole state unchanged, whatever the state and the
other arguments. -/
theorem start_mining_stopped_no_mutation (s : MinerState) (pid : Int)
    (threads : Nat) (now : Int) (ts : String) :
    s.start_mining MiningMode.stopped pid threads now ts = (false, s) := by
  simp [MinerState.start_mining]

theorem stop_mining_mode (s : MinerState) (reason ts : String) :
    ((s.stop_mining reason ts).2).mode = MiningMode.stopped := by
  by_cases hm : s.mode = MiningMode.stopped
  · simp [MinerState.stop_mining, hm]
  · simp [MinerState.stop_mining, hm, MinerState.add_log]

theorem stop_mining_already_stopped (s : MinerState) (reason ts : String)
    (h : s.mode = MiningMode.stopped) :
    s.stop_mining reason ts = (false, s) := by
  simp [MinerState.stop_mining, h]

/-- C4: `stop_mining` is idempotent at the state level: immediately after
any `stop_mining` call, a second call returns `false` and performs no
mutation at all (no field changes, no log append). -/
theorem stop_mining_idempotent (s : MinerState) (r1 ts1 r2 ts2 : String) :
    ((s.stop_mining r1 ts1).2).stop_mining r2 ts2
      = (false, (s.stop_mining r1 ts1).2) :=
  stop_mining_already_stopped _ r2 ts2 (stop_mining_mode s r1 ts1)

/-! Lock-trace model for the `threading.Lock` inside `MinerState`.

`threading.Lock` is not reentrant: a thread that already holds it and
acquires it again blocks forever. Each method's trace below lists, in
program order, the acquire/release operations the method issues on
`self._lock`, read off the `with self._lock:` blocks in `daemon/state.py`
(including the ones performed by nested calls to `add_log`). -/

/-- One operation on the state's mutual-exclusion lock. -/
inductive LockAction
  | acquire
  | release
deriving DecidableEq, Repr

/-- Run a lock trace from a single thread. The `Bool` is whether this
thread currently holds the lock; `none` means the thread blocked forever
(it acquired a non-reentrant lock it already holds, or released a lock it
does not hold). -/
def runLock : List LockAction → Bool → Option Bool
  | [], held => some held
  | LockAction.acquire :: rest, false => runLock rest true
  | LockAction.acquire :: _, true => none
  | LockAction.release :: rest, true => runLock rest false
  | LockAction.release :: _, false => none

/-- Number of acquire operations in a trace. -/
def countAcquires (l : List LockAction) : Nat :=
  (l.filter (fun a => a = LockAction.acquire)).length

/-- Lock trace of `MinerState.add_log`: one `with self._lock:` block. -/
def add_log_lockTrace : List LockAction :=
  [LockAction.acquire, LockAction.release]

/-- Lock trace of `MinerState.start_mining` (by whether the `mode`
argument is `STOPPED`): the early return touches the lock not at all;
otherwise the outer `with self._lock:` block calls `add_log` before
releasing. -/
def start_mining_lockTrace (modeArgStopped : Bool) : List LockAction :=
  if modeArgStopped then []
  else [LockAction.acquire] ++ add_log_lockTrace ++ [LockAction.release]

/-- Lock trace of `MinerState.stop_mining` (by whether the state is
already stopped): the no-op branch returns from inside the `with` block;
otherwise `add_log` is called before the release. -/
def stop_mining_lockTrace (alreadyStopped : Bool) : List LockAction :=
  if alreadyStopped then [LockAction.acquire, LockAction.release]
  else [LockAction.acquire] ++ add_log_lockTrace ++ [LockAction.release]

/-- Lock trace of `MinerState.set_error`: `add_log` is called inside the
`with self._lock:` block. -/
def set_error_lockTrace : List LockAction :=
  [LockAction.acquire] ++ add_log_lockTrace ++ [LockAction.release]

/-- Lock trace of the `MinerState.is_mining` property: one
`with self._lock:` block. -/
def is_mining_property_lockTrace : List LockAction :=
  [LockAction.acquire, LockAction.release]

/-- Lock trace of `MinerState.get_status_dict` (by whether `_start_time`
is set, i.e. truthy): inside its `with self._lock:` block the method
evaluates the `is_mining` property — once in the uptime guard when
`_start_time` short-circuits to true, and once more, unconditionally, for
the `"is_mining"` entry of the returned dict — and that property acquires
the same lock again. -/
def get_status_dict_lockTrace (startTimeSet : Bool) : List LockAction :=
  if startTimeSet then
    [LockAction.acquire] ++ is_mining_property_lockTrace
      ++ is_mining_property_lockTrace ++ [LockAction.release]
  else
    [LockAction.acquire] ++ is_mining_property_lockTrace
      ++ [LockAction.release]

/-- C2: the claim fails on the code. `start_mining` (with an active mode),
`stop_mining` (from an active state) and `set_error` each acquire the
state's non-reentrant lock twice — the outer `with self._lock:` block
calls `add_log`, which acquires the same lock again — and
`get_status_dict` does the same through the `is_mining` property it
evaluates while holding the lock (whether or not `_start_time` is set),
so each of these calls blocks forever instead of entering the critical
section at most once; of the operations the claim names only `add_log`
(called on its own) enters it once and terminates. -/
theorem state_operations_nested_lock_deadlock :
    runLock (start_mining_lockTrace false) false = none
    ∧ runLock (stop_mining_lockTrace false) false = none
    ∧ runLock set_error_lockTrace false = none
    ∧ runLock (get_status_dict_lockTrace true) false = none
    ∧ runLock (get_status_dict_lockTrace false) false = none
    ∧ countAcquires (start_mining_lockTrace false) = 2
    ∧ countAcquires (stop_mining_lockTrace false) = 2
    ∧ countAcquires set_error_lockTrace = 2
    ∧ countAcquires (get_status_dict_lockTrace true) = 3
    ∧ countAcquires (get_status_dict_lockTrace false) = 2
    ∧ runLock add_log_lockTrace false = some false := by
  decide

/-- C6: `calculate_threads_for_mode` is a pure function of the mode and
the fixed total core count: on 8 cores Background gives (4, low) and
`money_hunter` gives (6, high) — within the claimed 6-or-7 range — on 1
core both active modes give 1 thread, `Stopped` gives (0, 0), and active
modes never yield 0 threads. -/
theorem calculate_threads_for_mode_spec :
    ((MinerState.init 8).calculate_threads_for_mode MiningMode.background
        = (4, priorityLow))
    ∧ ((MinerState.init 8).calculate_threads_for_mode MiningMode.money_hunter
        = (6, priorityHigh))
    ∧ (((MinerState.init 8).calculate_threads_for_mode
        MiningMode.money_hunter).1 = 6
      ∨ ((MinerState.init 8).calculate_threads_for_mode
        MiningMode.money_hunter).1 = 7)
    ∧ ((MinerState.init 1).calculate_threads_for_mode MiningMode.background
        = (1, priorityLow))
    ∧ ((MinerState.init 1).calculate_threads_for_mode MiningMode.money_hunter
        = (1, priorityHigh))
    ∧ (∀ total : Nat,
        (MinerState.init total).calculate_threads_for_mode MiningMode.stopped
          = (0, 0))
    ∧ (∀ total : Nat,
        1 ≤ ((MinerState.init total).calculate_threads_for_mode
          MiningMode.background).1
        ∧ 1 ≤ ((MinerState.init total).calculate_threads_for_mode
          MiningMode.money_hunter).1) := by
  refine ⟨by decide, by decide, Or.inl (by decide), by decide, by decide,
    ?_, ?_⟩
  · intro total
    simp [MinerState.calculate_threads_for_mode]
  · intro total
    constructor
    · simp [MinerState.calculate_threads_for_mode, MinerState.init]
    · simp [MinerState.calculate_threads_for_mode, MinerState.init]

/-! Bounded FIFO behaviour of the log buffer. -/

/-- Keep only the last `cap` elements of a list. -/
def dropToCap (cap : Nat) (l : List String) : List String :=
  l.drop (l.length - cap)

theorem dequeAppend_eq_dropToCap (cap : Nat) (buf : List String)
    (x : String) : dequeAppend cap buf x = dropToCap cap (buf ++ [x]) := by
  unfold dequeAppend dropToCap
  split
  · rfl
  · have h : (buf ++ [x]).length - cap = 0 := by omega
    rw [h, List.drop_zero]

theorem dropToCap_length_le (cap : Nat) (l : List String) :
    (dropToCap cap l).length ≤ cap := by
  simp [dropToCap]
  omega

theorem dropToCap_of_length_le (cap : Nat) (l : List String)
    (h : l.length ≤ cap) : dropToCap cap l = l := by
  unfold dropToCap
  have hz : l.length - cap = 0 := by omega
  rw [hz, List.drop_zero]

theorem drop_append_of_le (d : Nat) (B l : List String)
    (h : d ≤ B.length) : B.drop d ++ l = (B ++ l).drop d := by
  rw [List.drop_append_eq_append_drop, Nat.sub_eq_zero_of_le h,
    List.drop_zero]

theorem dropToCap_append_left (cap : Nat) (B l : List String) :
    dropToCap cap (dropToCap cap B ++ l) = dropToCap cap (B ++ l) := by
  unfold dropToCap
  rw [drop_append_of_le _ _ _ (Nat.sub_le B.length cap), List.drop_drop]
  congr 1
  simp only [List.length_drop, List.length_append]
  omega

theorem foldl_dequeAppend (cap : Nat) (l : List String) :
    ∀ buf : List String, buf.length ≤ cap →
      l.foldl (dequeAppend cap) buf = dropToCap cap (buf ++ l) := by
  induction l with
  | nil =>
    intro buf h
    simpa using (dropToCap_of_length_le cap buf h).symm
  | cons x rest ih =>
    intro buf h
    rw [List.foldl_cons, dequeAppend_eq_dropToCap]
    rw [ih (dropToCap cap (buf ++ [x])) (dropToCap_length_le cap _)]
    rw [dropToCap_append_left]
    simp

/-- Run a sequence of `add_log` calls; each entry is the
(timestamp, message) pair one call observes/receives. -/
def runAddLogs (s : MinerState) (entries : List (String × String)) :
    MinerState :=
  entries.foldl (fun st p => st.add_log p.1 p.2) s

/-- The log lines a sequence of `add_log` calls builds. -/
def logLines (entries : List (String × String)) : List String :=
  entries.map (fun p => logLine p.1 p.2)

theorem runAddLogs_log_buffer (entries : List (String × String)) :
    ∀ s : MinerState,
      (runAddLogs s entries).log_buffer
        = (logLines entries).foldl (dequeAppend 50) s.log_buffer := by
  induction entries with
  | nil => intro s; rfl
  | cons p rest ih =>
    intro s
    rw [runAddLogs, List.foldl_cons, logLines, List.map_cons, List.foldl_cons]
    exact ih (s.add_log p.1 p.2)

/-- C7: the log buffer is a bounded FIFO of capacity 50: any sequence of
`add_log` calls on a fresh state leaves at most 50 lines in the buffer,
and after exactly 51 calls the buffer holds precisely the last 50 lines —
so the oldest line is gone (provided it differs from the later ones) while
the newest is present. -/
theorem log_buffer_bounded_fifo (total : Nat) :
    (∀ entries : List (String × String),
      (runAddLogs (MinerState.init total) entries).log_buffer.length ≤ 50)
    ∧ (∀ (first lastEntry : String × String)
        (mid : List (String × String)),
        mid.length = 49 →
        logLine first.1 first.2 ∉ logLines (mid ++ [lastEntry]) →
        (runAddLogs (MinerState.init total)
            (first :: (mid ++ [lastEntry]))).log_buffer
          = logLines (mid ++ [lastEntry])
        ∧ logLine first.1 first.2
            ∉ (runAddLogs (MinerState.init total)
              (first :: (mid ++ [lastEntry]))).log_buffer
        ∧ logLine lastEntry.1 lastEntry.2
            ∈ (runAddLogs (MinerState.init total)
              (first :: (mid ++ [lastEntry]))).log_buffer) := by
  constructor
  · intro entries
    rw [runAddLogs_log_buffer, foldl_dequeAppend 50 _ _ (by simp [MinerState.init])]
    exact dropToCap_length_le 50 _
  · intro first lastEntry mid hmid hnot
    have hlen : (logLines (mid ++ [lastEntry])).length = 50 := by
      simp [logLines, hmid]
    have hbuf : (runAddLogs (MinerState.init total)
        (first :: (mid ++ [lastEntry]))).log_buffer
        = logLines (mid ++ [lastEntry]) := by
      rw [runAddLogs_log_buffer,
        foldl_dequeAppend 50 _ _ (by simp [MinerState.init])]
      show dropToCap 50 ([] ++ logLines (first :: (mid ++ [lastEntry])))
        = logLines (mid ++ [lastEntry])
      rw [List.nil_append,
        show logLines (first :: (mid ++ [lastEntry]))
          = logLine first.1 first.2 :: logLines (mid ++ [lastEntry]) from rfl]
      unfold dropToCap
      simp [hlen]
    refine ⟨hbuf, ?_, ?_⟩
    · rw [hbuf]; exact hnot
    · rw [hbuf]
      simp [logLines]

/-- C7 witness: a concrete run of 51 distinct `add_log` calls on a fresh
4-core state: the buffer caps at 50, equals the last 50 lines, has lost
the first line and still holds the last. -/
theorem log_buffer_bounded_fifo_witness :
    ((List.range 49).map (fun i => ("t", toString (i + 1)))).length = 49
    ∧ logLine "t" "m0"
        ∉ logLines (((List.range 49).map (fun i => ("t", toString (i + 1))))
          ++ [("t", "mLast")])
    ∧ ((runAddLogs (MinerState.init 4)
          (("t", "m0") :: (((List.range 49).map
              (fun i => ("t", toString (i + 1)))) ++ [("t", "mLast")]))).log_buffer
        = logLines (((List.range 49).map (fun i => ("t", toString (i + 1))))
          ++ [("t", "mLast")])
      ∧ logLine "t" "m0"
          ∉ (runAddLogs (MinerState.init 4)
            (("t", "m0") :: (((List.range 49).map
              (fun i => ("t", toString (i + 1)))) ++ [("t", "mLast")]))).log_buffer
      ∧ logLine "t" "mLast"
          ∈ (runAddLogs (MinerState.init 4)
            (("t", "m0") :: (((List.range 49).map
              (fun i => ("t", toString (i + 1)))) ++ [("t", "mLast")]))).log_buffer) := by
  refine ⟨by decide, by decide, ?_⟩
  exact (log_buffer_bounded_fifo 4).2 ("t", "m0") ("t", "mLast")
    ((List.range 49).map (fun i => ("t", toString (i + 1))))
    (by decide) (by decide)

/-! JSON-ish values for IPC requests and responses (`daemon/server.py`).
A request or response is a field list in construction order, as the
Python dict literals are written. -/

/-- A JSON scalar as used by the IPC handlers modelled here. -/
inductive JValue
  | jbool (b : Bool)
  | jstr (s : String)
  | jnull
deriving DecidableEq, Repr

/-- A request or response object: fields in construction order. -/
def JObject := List (String × JValue)

instance : DecidableEq JObject := by
  unfold JObject
  infer_instance

/-- `IPCServer._handle_ping`: ignores the request and returns the fixed
success object. -/
def handle_ping (_req : JObject) : JObject :=
  [("ok", JValue.jbool true),
   ("message", JValue.jstr ("pong")),
   ("daemon_version", JValue.jstr ("1.0.0"))]

/-- C9 counterexample: on the concrete request for the `ping` command the
handler's response carries no `version` field at all (the version string
sits under the key `daemon_version`), so it is not the object
`{ok: true, message: "pong", version: "1.0.0"}` the claim states. -/
theorem ping_response_has_no_version_key :
    (handle_ping [("cmd", JValue.jstr ("ping"))]).lookup ("version") = none
    ∧ (handle_ping [("cmd", JValue.jstr ("ping"))]).lookup ("daemon_version")
        = some (JValue.jstr ("1.0.0"))
    ∧ handle_ping [("cmd", JValue.jstr ("ping"))]
        ≠ [("ok", JValue.jbool true),
           ("message", JValue.jstr ("pong")),
           ("version", JValue.jstr ("1.0.0"))] := by
  refine ⟨rfl, rfl, ?_⟩
  decide

/-- C9 (amended): for every request, the ping handler succeeds and returns
exactly `{ok: true, message: "pong", daemon_version: "1.0.0"}` — the
version string is carried under the key `daemon_version`, not `version`. -/
theorem ping_response_exact (req : JObject) :
    handle_ping req
      = [("ok", JValue.jbool true),
         ("message", JValue.jstr ("pong")),
         ("daemon_version", JValue.jstr ("1.0.0"))] := rfl

/-! Configuration model (`daemon/config.py` and
`IPCServer._handle_config_set`). -/

/-- The `MiningConfig` dataclass. -/
structure MiningConfig where
  wallet_address : String
  pool_url : String
  worker_name : String
  use_ssl : Bool
  profile_name : String
deriving DecidableEq, Repr

/-- The dataclass field defaults. -/
def MiningConfig.default : MiningConfig :=
  { wallet_address := "YOUR_WALLET_ADDRESS_HERE"
    pool_url := "pool.supportxmr.com:443"
    worker_name := "onyx-miner"
    use_ssl := true
    profile_name := "Default Profile" }

/-- `MiningConfig.is_valid`: the (bool, reason) pair the source returns.
Python's `":" in url` is a substring test; for a single character it is
`String.contains`. -/
def MiningConfig.is_valid (c : MiningConfig) : Bool × String :=
  if c.wallet_address = "" ∨ c.wallet_address = "YOUR_WALLET_ADDRESS_HERE" then
    (false, "Wallet address must be configured")
  else if c.pool_url = "" then
    (false, "Pool URL is required")
  else if !(c.pool_url.contains ':') then
    (false, "Pool URL must include port (e.g., pool.example.com:443)")
  else if c.worker_name = "" then
    (false, "Worker name is required")
  else
    (true, "")

/-- `ConfigManager.load_config` over the abstract disk: the stored config
when the file exists and parses, the dataclass defaults otherwise. -/
def ConfigManager.load_config (disk : Option MiningConfig) : MiningConfig :=
  disk.getD MiningConfig.default

/-- `ConfigManager.save_config` over the abstract disk: re-validates and
refuses to write an invalid config; on success the file now holds exactly
the given config. Returns the Python return value and the disk after the
call. -/
def ConfigManager.save_config (disk : Option MiningConfig)
    (c : MiningConfig) : Bool × Option MiningConfig :=
  if (c.is_valid).1 then (true, some c) else (false, disk)

/-- The optional fields a `config_set` request may carry (a field is
`none` when the key is absent from the request). -/
structure ConfigSetRequest where
  wallet_address : Option String
  pool_url : Option String
  worker_name : Option String
  use_ssl : Option Bool
  profile_name : Option String
deriving DecidableEq, Repr

/-- The field-merge step of `_handle_config_set`: each field present in
the request overwrites the loaded value, absent fields are kept. -/
def applyConfigSet (req : ConfigSetRequest) (c : MiningConfig) :
    MiningConfig :=
  { wallet_address := req.wallet_address.getD c.wallet_address
    pool_url := req.pool_url.getD c.pool_url
    worker_name := req.worker_name.getD c.worker_name
    use_ssl := req.use_ssl.getD c.use_ssl
    profile_name := req.profile_name.getD c.profile_name }

/-- `IPCServer._handle_config_set`: load, merge, validate, and only then
save; returns the response object and the disk after the call. -/
def handle_config_set (req : ConfigSetRequest) (disk : Option MiningConfig) :
    JObject × Option MiningConfig :=
  let current := ConfigManager.load_config disk
  let merged := applyConfigSet req current
  let v := merged.is_valid
  if v.1 = false then
    ([("ok", JValue.jbool false),
      ("error", JValue.jstr ("Invalid configuration: " ++ v.2))], disk)
  else
    let sv := ConfigManager.save_config disk merged
    if sv.1 then
      ([("ok", JValue.jbool true),
        ("message", JValue.jstr ("Configuration updated"))], sv.2)
    else
      ([("ok", JValue.jbool false),
        ("error", JValue.jstr ("Failed to save configuration"))], sv.2)

/-- C8: `config_set` merges only the fields present in the request into
the loaded configuration; when the merged result is invalid the update is
rejected with `ok: false` and an error, the disk is unchanged and a
read-back equals the pre-update value; and the handler never persists an
invalid configuration (whenever the disk changes, the newly stored config
is valid). -/
theorem config_set_partial_update_and_validation (req : ConfigSetRequest)
    (disk : Option MiningConfig) :
    ((req.wallet_address = none →
        (applyConfigSet req (ConfigManager.load_config disk)).wallet_address
          = (ConfigManager.load_config disk).wallet_address)
      ∧ (req.pool_url = none →
        (applyConfigSet req (ConfigManager.load_config disk)).pool_url
          = (ConfigManager.load_config disk).pool_url)
      ∧ (req.worker_name = none →
        (applyConfigSet req (ConfigManager.load_config disk)).worker_name
          = (ConfigManager.load_config disk).worker_name)
      ∧ (req.use_ssl = none →
        (applyConfigSet req (ConfigManager.load_config disk)).use_ssl
          = (ConfigManager.load_config disk).use_ssl)
      ∧ (req.profile_name = none →
        (applyConfigSet req (ConfigManager.load_config disk)).profile_name
          = (ConfigManager.load_config disk).profile_name))
    ∧ (((applyConfigSet req (ConfigManager.load_config disk)).is_valid).1
          = false →
        (handle_config_set req disk).2 = disk
        ∧ ConfigManager.load_config (handle_config_set req disk).2
            = ConfigManager.load_config disk
        ∧ ((handle_config_set req disk).1).lookup ("ok")
            = some (JValue.jbool false)
        ∧ ((handle_config_set req disk).1).lookup ("error")
            = some (JValue.jstr ("Invalid configuration: "
              ++ ((applyConfigSet req
                (ConfigManager.load_config disk)).is_valid).2)))
    ∧ ((handle_config_set req disk).2 = disk
        ∨ ∃ c : MiningConfig, (handle_config_set req disk).2 = some c
            ∧ ((c.is_valid).1 = true
              ∧ c = applyConfigSet req (ConfigManager.load_config disk))) := by
  refine ⟨⟨?_, ?_, ?_, ?_, ?_⟩, ?_, ?_⟩
  · intro h; simp [applyConfigSet, h]
  · intro h; simp [applyConfigSet, h]
  · intro h; simp [applyConfigSet, h]
  · intro h; simp [applyConfigSet, h]
  · intro h; simp [applyConfigSet, h]
  · intro h
    have hrun : handle_config_set req disk
        = ([("ok", JValue.jbool false),
            ("error", JValue.jstr ("Invalid configuration: "
              ++ ((applyConfigSet req
                (ConfigManager.load_config disk)).is_valid).2))], disk) := by
      simp [handle_config_set, h]
    rw [hrun]
    exact ⟨rfl, rfl, rfl, rfl⟩
  · by_cases h : ((applyConfigSet req
        (ConfigManager.load_config disk)).is_valid).1 = false
    · left
      simp [handle_config_set, h]
    · right
      refine ⟨applyConfigSet req (ConfigManager.load_config disk), ?_, ?_, rfl⟩
      · simp [handle_config_set, h, ConfigManager.save_config,
          Bool.of_not_eq_false h]
      · exact Bool.of_not_eq_false h

/-- C8 witness: with an empty request against an absent config file the
merged result is the invalid placeholder default, so the handler rejects
it, the disk stays absent and the read-back is unchanged. -/
theorem config_set_partial_update_and_validation_witness :
    (((applyConfigSet
        (ConfigSetRequest.mk none none none none none)
        (ConfigManager.load_config none)).is_valid).1 = false)
    ∧ ((ConfigSetRequest.mk none none none none none).wallet_address = none)
    ∧ ((handle_config_set
          (ConfigSetRequest.mk none none none none none) none).2 = none
        ∧ ConfigManager.load_config (handle_config_set
            (ConfigSetRequest.mk none none none none none) none).2
          = ConfigManager.load_config none
        ∧ ((handle_config_set
            (ConfigSetRequest.mk none none none none none) none).1).lookup ("ok")
          = some (JValue.jbool false)
        ∧ ((handle_config_set
            (ConfigSetRequest.mk none none none none none) none).1).lookup ("error")
          = some (JValue.jstr ("Invalid configuration: "
            ++ (((applyConfigSet (ConfigSetRequest.mk none none none none none)
              (ConfigManager.load_config none)).is_valid).2))))
    ∧ ((applyConfigSet (ConfigSetRequest.mk none none none none none)
        (ConfigManager.load_config none)).wallet_address
          = (ConfigManager.load_config none).wallet_address) := by
  refine ⟨by decide, rfl, ?_, ?_⟩
  · exact (config_set_partial_update_and_validation
      (ConfigSetRequest.mk none none none none none) none).2.1 (by decide)
  · exact (config_set_partial_update_and_validation
      (ConfigSetRequest.mk none none none none none) none).1.1 rfl

/-! Controller model (`daemon/controller.py`). The worker handle carries
the pid and a snapshot of what `Popen.poll()` returns at the next check
(`none` = still running, `some code` = exited with that code). The monitor
thread, OS signalling, orphan sweep and config-file removal are external
effects outside the state this model tracks. -/

/-- The `subprocess.Popen` handle as the controller observes it. -/
structure ProcHandle where
  pid : Int
  pollResult : Option Int
deriving DecidableEq, Repr

/-- The controller fields the modelled methods read and write. -/
structure XMrigController where
  state : MinerState
  xmrig_process : Option ProcHandle
deriving DecidableEq, Repr

/-- `XMrigController.is_mining`: no handle → false; handle with a
completed poll → clear the handle, stop the state with the unexpected
termination reason, return false; live process → true, no mutation. -/
def XMrigController.is_mining (c : XMrigController) (ts : String) :
    Bool × XMrigController :=
  match c.xmrig_process with
  | none => (false, c)
  | some h =>
    match h.pollResult with
    | some _ =>
        (false,
          { state := (c.state.stop_mining
              ("Process terminated unexpectedly") ts).2
            xmrig_process := none })
    | none => (true, c)

/-- `XMrigController.stop_mining`: early success when not mining;
otherwise (modulo the OS signalling this model abstracts) clear the
handle, stop the state with the reason, and report success. -/
def XMrigController.stop_mining (c : XMrigController) (reason ts : String) :
    Bool × XMrigController :=
  let im := c.is_mining ts
  if im.1 = false then
    (true, im.2)
  else
    (true,
      { state := (im.2.state.stop_mining reason ts).2
        xmrig_process := none })

/-- `XMrigController._quick_stop_mining`: same guard and state effect as
the full stop at this model's level of abstraction (it force-kills instead
of terminating gracefully, an external effect). -/
def XMrigController.quick_stop_mining (c : XMrigController)
    (reason ts : String) : Bool × XMrigController :=
  let im := c.is_mining ts
  if im.1 = false then
    (true, im.2)
  else
    (true,
      { state := (im.2.state.stop_mining reason ts).2
        xmrig_process := none })

/-- `IPCServer._handle_stop`: synchronous full stop with the fixed reason,
then the success or failure response. -/
def handle_stop (c : XMrigController) (ts : String) :
    JObject × XMrigController :=
  let r := c.stop_mining ("User requested via IPC") ts
  if r.1 then
    ([("ok", JValue.jbool true),
      ("message", JValue.jstr ("Mining stopped"))], r.2)
  else
    ([("ok", JValue.jbool false),
      ("error", JValue.jstr ("Failed to stop mining: "
        ++ ((r.2).state.last_error.getD ("Unknown error"))))], r.2)

/-- A controller whose worker was started and then died on its own: the
state records background mining at pid 77, the handle's next poll reports
exit code 0. -/
def deadWorkerController : XMrigController :=
  { state := ((MinerState.init 4).start_mining MiningMode.background 77 2 0
      ("00:00:00")).2
    xmrig_process := some { pid := 77, pollResult := some 0 } }

/-- C5 counterexample: when `is_mining` reconciles an unexpectedly dead
worker it stops the state with the reason string
"Process terminated unexpectedly" (capital P), not the claimed
"process terminated unexpectedly": on a concrete dead-worker controller
the log records the former and not the latter. -/
theorem is_mining_reason_is_capitalised :
    (deadWorkerController.is_mining ("00:00:01")).1 = false
    ∧ ((deadWorkerController.is_mining ("00:00:01")).2).state.mode
        = MiningMode.stopped
    ∧ logLine ("00:00:01")
        ("Mining stopped: Process terminated unexpectedly")
        ∈ ((deadWorkerController.is_mining ("00:00:01")).2).state.log_buffer
    ∧ logLine ("00:00:01")
        ("Mining stopped: process terminated unexpectedly")
        ∉ ((deadWorkerController.is_mining ("00:00:01")).2).state.log_buffer := by
  decide

/-- C5 (amended): `is_mining` returns false when no worker handle exists
(without mutation); when a handle exists and the poll shows the process
exited on its own it clears the handle, transitions the state to Stopped
via `stop_mining` with reason "Process terminated unexpectedly" (capital
P in the source), and returns false; when the process is still alive it
returns true without mutating anything. -/
theorem is_mining_reconciles_unexpected_exit (c : XMrigController)
    (ts : String) :
    (c.xmrig_process = none → c.is_mining ts = (false, c))
    ∧ (∀ h : ProcHandle, c.xmrig_process = some h → h.pollResult = none →
        c.is_mining ts = (true, c))
    ∧ (∀ (h : ProcHandle) (code : Int),
        c.xmrig_process = some h → h.pollResult = some code →
        c.is_mining ts
          = (false,
              { state := (c.state.stop_mining
                  ("Process terminated unexpectedly") ts).2
                xmrig_process := none })
        ∧ ((c.is_mining ts).2).state.mode = MiningMode.stopped
        ∧ ((c.is_mining ts).2).xmrig_process = none) := by
  refine ⟨?_, ?_, ?_⟩
  · intro h
    simp [XMrigController.is_mining, h]
  · intro h hc hp
    simp [XMrigController.is_mining, hc, hp]
  · intro h code hc hp
    refine ⟨by simp [XMrigController.is_mining, hc, hp], ?_, ?_⟩
    · simp [XMrigController.is_mining, hc, hp, stop_mining_mode]
    · simp [XMrigController.is_mining, hc, hp]

/-- C5 witness: the amended theorem applied to the concrete dead-worker
controller and to a controller with no handle. -/
theorem is_mining_reconciles_unexpected_exit_witness :
    (deadWorkerController.xmrig_process
        = some { pid := 77, pollResult := some 0 })
    ∧ (ProcHandle.mk 77 (some 0)).pollResult = some 0
    ∧ (deadWorkerController.is_mining ("00:00:01")
        = (false,
            { state := (deadWorkerController.state.stop_mining
                ("Process terminated unexpectedly") ("00:00:01")).2
              xmrig_process := none })
      ∧ ((deadWorkerController.is_mining ("00:00:01")).2).state.mode
          = MiningMode.stopped
      ∧ ((deadWorkerController.is_mining ("00:00:01")).2).xmrig_process
          = none)
    ∧ (XMrigController.mk (MinerState.init 4) none).xmrig_process = none
    ∧ (XMrigController.mk (MinerState.init 4) none).is_mining ("00:00:01")
        = (false, XMrigController.mk (MinerState.init 4) none) := by
  refine ⟨rfl, rfl, ?_, rfl, ?_⟩
  · exact (is_mining_reconciles_unexpected_exit deadWorkerController
      ("00:00:01")).2.2 (ProcHandle.mk 77 (some 0)) 0 rfl rfl
  · exact (is_mining_reconciles_unexpected_exit
      (XMrigController.mk (MinerState.init 4) none) ("00:00:01")).1 rfl

/-- C10: controller-level stop is a successful no-op when nothing is
mining: with no worker handle both `stop_mining` and `_quick_stop_mining`
return true and leave the controller unchanged, and the IPC stop handler
replies `{ok: true, message: "Mining stopped"}`; more generally whenever
`is_mining()` reports false both stops succeed; in contrast,
`MinerState.stop_mining` returns false whenever the state is already
Stopped. -/
theorem controller_stop_noop_success (c : XMrigController)
    (reason ts : String) :
    ((c.is_mining ts).1 = false →
      c.stop_mining reason ts = (true, (c.is_mining ts).2)
      ∧ c.quick_stop_mining reason ts = (true, (c.is_mining ts).2))
    ∧ (c.xmrig_process = none →
      c.stop_mining reason ts = (true, c)
      ∧ c.quick_stop_mining reason ts = (true, c)
      ∧ handle_stop c ts
        = ([("ok", JValue.jbool true),
            ("message", JValue.jstr ("Mining stopped"))], c))
    ∧ (∀ s : MinerState, s.mode = MiningMode.stopped →
      (s.stop_mining reason ts).1 = false) := by
  refine ⟨?_, ?_, ?_⟩
  · intro h
    constructor
    · simp [XMrigController.stop_mining, h]
    · simp [XMrigController.quick_stop_mining, h]
  · intro h
    have him : c.is_mining ts = (false, c) := by
      simp [XMrigController.is_mining, h]
    have hstop : c.stop_mining reason ts = (true, c) := by
      simp [XMrigController.stop_mining, him]
    have hstop2 : c.stop_mining ("User requested via IPC") ts = (true, c) := by
      simp [XMrigController.stop_mining, him]
    refine ⟨hstop, ?_, ?_⟩
    · simp [XMrigController.quick_stop_mining, him]
    · simp [handle_stop, hstop2]
  · intro s hs
    rw [stop_mining_already_stopped s reason ts hs]

/-- C10 witness: a fresh 4-core controller with no worker: both stops
succeed without mutation, the stop handler replies with the success
object, and the state-level stop on the stopped state returns false. -/
theorem controller_stop_noop_success_witness :
    ((XMrigController.mk (MinerState.init 4) none).is_mining ("t")).1 = false
    ∧ (XMrigController.mk (MinerState.init 4) none).xmrig_process = none
    ∧ ((XMrigController.mk (MinerState.init 4) none).stop_mining
        ("User requested") ("t")
        = (true, XMrigController.mk (MinerState.init 4) none)
      ∧ (XMrigController.mk (MinerState.init 4) none).quick_stop_mining
        ("User requested") ("t")
        = (true, XMrigController.mk (MinerState.init 4) none)
      ∧ handle_stop (XMrigController.mk (MinerState.init 4) none) ("t")
        = ([("ok", JValue.jbool true),
            ("message", JValue.jstr ("Mining stopped"))],
          XMrigController.mk (MinerState.init 4) none))
    ∧ (MinerState.init 4).mode = MiningMode.stopped
    ∧ ((MinerState.init 4).stop_mining ("User requested") ("t")).1 = false := by
  refine ⟨rfl, rfl, ?_, rfl, ?_⟩
  · exact (controller_stop_noop_success
      (XMrigController.mk (MinerState.init 4) none)
      ("User requested") ("t")).2.1 rfl
  · exact (controller_stop_noop_success
      (XMrigController.mk (MinerState.init 4) none)
      ("User requested") ("t")).2.2 (MinerState.init 4) rfl
